import Mathlib

/-!
# Verification of the Modulo vehicle-selection core (pymodulo)

Shallow embedding of the pymodulo library (Microsoft Modulo): the
incidence-table data model produced by `DataLoader.fetch_data_for_vehicle_selection`,
the coverage metric `metrics.percentage_coverage`, the `VehicleSelector`
construction (cardinality check, train/test split, metric resolution), the
temporal bucketing of `DataLoader.__get_time_segments` /
`compute_temporal_id_and_update_db`, and the greedy maximum-coverage logic of
`GreedyVehicleSelector.__max_coverage_greedy_logic`.

Dataframes are embedded as lists of rows; Python sets of segments are embedded
by deduplicated lists (only cardinality and membership of these sets are ever
used by the source); Python numeric division is embedded in `ℚ` (the values
compared by the claims, `0.0` and `100.0`, are exact in both models); a Python
function that can raise is embedded in `Option`/`Except`.
-/

namespace Modulo

/-- One row of the dataframe produced by `fetch_data_for_vehicle_selection`:
columns `vehicle_id`, `stratum_id`, `temporal_id`, `count`
(`DataLoader.py`, lines 367-380). -/
structure Row where
  vehicle_id : Int
  stratum_id : Int
  temporal_id : Int
  cnt : Nat
deriving DecidableEq, Repr

/-- The `spatiotemporal_segment` column: `str(stratum_id) + "_" + str(temporal_id)`
(`DataLoader.py`, line 383).  The underscore-joined string of two integers is
in bijection with the pair, so the segment key is embedded as the pair. -/
def Row.segment (r : Row) : Int × Int := (r.stratum_id, r.temporal_id)

/-- `df['vehicle_id']` as a list (column extraction preserves row order). -/
def vehicleColumn (df : List Row) : List Int := df.map (·.vehicle_id)

/-- Pandas `Series.unique()`: distinct values in order of first occurrence.
Accumulator `seen` records values already emitted. -/
def uniqueAux (seen : List Int) : List Int → List Int
  | [] => []
  | x :: xs => if x ∈ seen then uniqueAux seen xs else x :: uniqueAux (x :: seen) xs

/-- `df['vehicle_id'].unique().tolist()`. -/
def uniqueVehicles (df : List Row) : List Int := uniqueAux [] (vehicleColumn df)

/-! ## metrics.py -/

/-- `metrics.percentage_coverage` (`metrics.py`, lines 11-33):
`len(selected unique segments) / len(all unique segments) * 100`.
`df['spatiotemporal_segment'].unique()` is embedded via `List.dedup` (only the
length of the result is used, which is the number of distinct segments).
A zero denominator raises `ZeroDivisionError` in Python, embedded as `none`. -/
def percentage_coverage (selected_vehicles_list : List Int) (df : List Row) :
    Option ℚ :=
  let all_vehicles_coverage_set := (df.map Row.segment).dedup
  let selected_vehicles_coverage_set :=
    ((df.filter (fun r => r.vehicle_id ∈ selected_vehicles_list)).map Row.segment).dedup
  if all_vehicles_coverage_set.length = 0 then none
  else some ((selected_vehicles_coverage_set.length : ℚ) /
      (all_vehicles_coverage_set.length : ℚ) * 100)

/-- The metric registry `METRICS_LIST` (`metrics.py`, lines 36-38), a dict
from string identifiers to metric functions, embedded as an association list. -/
def METRICS_LIST : List (String × (List Int → List Row → Option ℚ)) :=
  [("percentage_coverage", percentage_coverage)]

/-! ## VehicleSelector.py -/

/-- The error taxonomy relevant to selector construction: the cardinality
`ValueError` of `VehicleSelector.__init__` (spec name `InvalidArgument`) and
the unknown-metric `ValueError` of `__decide_metric_function`
(spec name `UnsupportedMetric`). -/
inductive SelError where
  | invalidArgument
  | unsupportedMetric
deriving DecidableEq, Repr

/-- The `coverage_metric` argument: either a string identifier or a
metric function supplied directly. -/
inductive CoverageMetric where
  | str (s : String)
  | func (f : List Int → List Row → Option ℚ)

/-- `VehicleSelector.__decide_metric_function` (`VehicleSelector.py`,
lines 47-67): a string is looked up in `METRICS_LIST` (a `KeyError` becomes
the unsupported-metric `ValueError`); anything else is returned as-is. -/
def decideMetricFunction : CoverageMetric →
    Except SelError (List Int → List Row → Option ℚ)
  | .str s =>
    match METRICS_LIST.find? (fun p => p.1 = s) with
    | some p => .ok p.2
    | none => .error .unsupportedMetric
  | .func f => .ok f

/-- `VehicleSelector.__train_test_splitter`, train half
(`VehicleSelector.py`, line 44): `df[df['temporal_id'] <= ts]`. -/
def trainSplit (df : List Row) (ts : Int) : List Row :=
  df.filter (fun r => r.temporal_id ≤ ts)

/-- `VehicleSelector.__train_test_splitter`, test half
(`VehicleSelector.py`, line 45): `df[df['temporal_id'] > ts]`. -/
def testSplit (df : List Row) (ts : Int) : List Row :=
  df.filter (fun r => ts < r.temporal_id)

/-- The state of a constructed `VehicleSelector`. -/
structure Selector where
  num_to_select : Nat
  train_test_split_timestamp : Int
  df : List Row
  df_train : List Row
  df_test : List Row
  coverage_metric_function : List Int → List Row → Option ℚ

/-- `VehicleSelector.__init__` (`VehicleSelector.py`, lines 22-33): raise the
cardinality `ValueError` when `num_to_select > len(df['vehicle_id'].unique())`,
otherwise store the fields, split into train/test and resolve the metric. -/
def vehicleSelectorInit (num_to_select : Nat) (df : List Row)
    (train_test_split_timestamp : Int) (coverage_metric : CoverageMetric) :
    Except SelError Selector :=
  if (uniqueVehicles df).length < num_to_select then .error .invalidArgument
  else
    match decideMetricFunction coverage_metric with
    | .error e => .error e
    | .ok f =>
      .ok ⟨num_to_select, train_test_split_timestamp, df,
        trainSplit df train_test_split_timestamp,
        testSplit df train_test_split_timestamp, f⟩

/-! ## DataLoader.py: construction and temporal bucketing -/

/-- The state stored by `DataLoader.__init__` (`DataLoader.py`, lines 34-38). -/
structure DataLoader where
  temporal_granularity : Int
  mongo_uri : String
  db_name : String
  collection_name : String
deriving DecidableEq, Repr

/-- `DataLoader.__init__` (`DataLoader.py`, lines 34-38): stores its four
arguments.  The body performs no validation and contains no `raise`; it is
encoded in `Except` so that the absence of a construction-time failure is a
statable fact. -/
def dataLoaderInit (temporal_granularity : Int)
    (mongo_uri db_name collection_name : String) : Except String DataLoader :=
  .ok ⟨temporal_granularity, mongo_uri, db_name, collection_name⟩

/-- `np.arange(start, stop, step)` on integers, one emission step: emit `cur`
and advance by `step` while `cur` is strictly on the start side of `stop`
(numpy produces `max(ceil((stop-start)/step), 0)` elements, so a step pointing
away from `stop` yields the empty array).  `fuel` bounds the recursion; the
wrapper passes `|stop - start|`, which is enough because `|step| ≥ 1` whenever
any element is emitted. -/
def arangeAux (step : Int) : Nat → Int → Int → List Int
  | 0, _, _ => []
  | fuel + 1, cur, stop =>
    if (0 < step ∧ cur < stop) ∨ (step < 0 ∧ stop < cur) then
      cur :: arangeAux step fuel (cur + step) stop
    else []

/-- `np.arange(start, stop, step).tolist()` for integer arguments. -/
def npArange (start stop step : Int) : List Int :=
  arangeAux step (stop - start).natAbs start stop

/-- `DataLoader.__get_time_segments` (`DataLoader.py`, lines 249-254):
boundaries are `np.arange(start, end, granularity) + [end]`, and segments are
the consecutive pairs.  `np.arange` with step `0` raises `ZeroDivisionError`,
embedded as `none`. -/
def getTimeSegments (granularity start_unixtime end_unixtime : Int) :
    Option (List (Int × Int)) :=
  if granularity = 0 then none
  else
    let time_boundaries := npArange start_unixtime end_unixtime granularity ++
      [end_unixtime]
    some (time_boundaries.zip time_boundaries.tail)

/-- The segment list built by `compute_temporal_id_and_update_db`
(`DataLoader.py`, line 284): `__get_time_segments(min_time, max_time + 1)`. -/
def computeTimeSegments (granularity min_time max_time : Int) :
    Option (List (Int × Int)) :=
  getTimeSegments granularity min_time (max_time + 1)

/-- The query predicate of `compute_temporal_id_and_update_db`
(`DataLoader.py`, lines 290-297): `segment_start <= ts < segment_end`. -/
def inSegment (ts : Int) (p : Int × Int) : Bool :=
  decide (p.1 ≤ ts) && decide (ts < p.2)

/-- The `temporal_id` a record with timestamp `ts` ends up with after
`compute_temporal_id_and_update_db` walks the segments in order and `$set`s
`temporal_id = segment_start` for each matching segment (last write wins). -/
def assignTemporalId (segs : List (Int × Int)) (ts : Int) : Option Int :=
  segs.foldl (fun acc p => if inSegment ts p then some p.1 else acc) none

/-! ## GreedyVehicleSelector.py -/

/-- `dict(df['vehicle_id'].value_counts())[v]`: the number of rows of
vehicle `v` in the dataframe. -/
def countOf (df : List Row) (v : Int) : Nat :=
  (df.filter (fun r => r.vehicle_id = v)).length

/-- `df_sel['spatiotemporal_segment'].tolist()` for
`df_sel = df[df['vehicle_id'] == vehicle]`
(`GreedyVehicleSelector.py`, lines 33, 36, 50-51). -/
def segsOf (df : List Row) (v : Int) : List (Int × Int) :=
  (df.filter (fun r => r.vehicle_id = v)).map Row.segment

/-- `max(stats.items(), key=operator.itemgetter(1))[0]`
(`GreedyVehicleSelector.py`, line 32): Python's `max` keeps the current best
and replaces it only by a strictly greater key, so it returns the first
maximal item of the iteration.  `max` of an empty dict raises `ValueError`,
embedded as `none`.  The iteration order of the `value_counts()` dict
(count-descending, with ties in an order pandas leaves unspecified) is the
`statsOrd` parameter; theorems quantify over it. -/
def firstVehicle (df : List Row) : List Int → Option Int
  | [] => none
  | v :: vs =>
    some (vs.foldl (fun best w => if countOf df best < countOf df w then w else best) v)

/-- One candidate test of the inner loop (`GreedyVehicleSelector.py`,
lines 49-58), on accumulator
`(candidate_vehicle, candidate_coverage, candidate_count)`:
`new_coverage = set(current_coverage).union(set(sel))` (embedded as the
deduplicated concatenation: only its member set and length are ever used) and
the candidate is replaced iff `new_count > candidate_count`. -/
def scanStep (dfRem : List Row) (cov : List (Int × Int))
    (acc : Int × List (Int × Int) × Nat) (v : Int) : Int × List (Int × Int) × Nat :=
  let sel := segsOf dfRem v
  let new_coverage := (cov ++ sel).dedup
  if acc.2.2 < new_coverage.length then (v, new_coverage, new_coverage.length)
  else acc

/-- The strict-improvement test `new_count > candidate_count` against the last
recorded count, for a single vehicle; used to phrase the early-stop
condition. -/
def unionCount (cov sel : List (Int × Int)) : Nat := ((cov ++ sel).dedup).length

/-- The loop state of `__max_coverage_greedy_logic`: the candidate pool
`total_vehicles` (a Python set of ints, kept here as its list of members),
the filtered `df_train`, and the four accumulator lists. -/
structure GreedyState where
  pool : List Int
  dfRem : List Row
  current_coverage : List (Int × Int)
  current_vehicles : List Int
  current_count : List Nat
  iteration_count : List Nat
deriving Repr

/-- The `for i in range(1, vehicle_count)` loop of
`__max_coverage_greedy_logic` (`GreedyVehicleSelector.py`, lines 43-68).
`fuel` is the number of remaining loop indices, `i` the current index, `tvc`
the constant `total_vehicles_counts`.  The scan over `for vehicle in
total_vehicles` iterates a Python set, whose order the language does not fix;
it is supplied by the `ord` parameter applied to the pool's members.
`candidate_count` starts at `current_count[-1]`; the list is nonempty at
every call, so `getLastD 0` reads that entry.  A found candidate
(`candidate_vehicle > -1`) is appended and removed from the pool and the
dataframe; otherwise the loop breaks. -/
def greedyLoop (ord : List Int → List Int) (tvc : Nat) :
    Nat → Nat → GreedyState → GreedyState
  | 0, _, st => st
  | fuel + 1, i, st =>
    if i ≤ tvc then
      let acc := (ord st.pool).foldl (scanStep st.dfRem st.current_coverage)
        (-1, [], st.current_count.getLastD 0)
      if -1 < acc.1 then
        greedyLoop ord tvc fuel (i + 1)
          ⟨st.pool.erase acc.1,
           st.dfRem.filter (fun r => r.vehicle_id ≠ acc.1),
           acc.2.1,
           st.current_vehicles ++ [acc.1],
           st.current_count ++ [acc.2.2],
           st.iteration_count ++ [i]⟩
      else st
    else greedyLoop ord tvc fuel (i + 1) st

/-- `GreedyVehicleSelector.__max_coverage_greedy_logic`
(`GreedyVehicleSelector.py`, lines 17-70): pick the vehicle with the maximal
`value_counts()` entry, seed the coverage with its segment list, remove it
from the pool and the dataframe, and run the greedy loop for the remaining
`vehicle_count - 1` slots.  `statsOrd` is the iteration order of the
`value_counts()` dict and `ord` the iteration order of the vehicle set, both
unspecified by the source language and hence parameters. -/
def maxCoverageGreedyLogic (statsOrd : List Int) (ord : List Int → List Int)
    (df_train : List Row) (vehicle_count : Nat) : Option GreedyState :=
  match firstVehicle df_train statsOrd with
  | none => none
  | some first_vehicle =>
    let total_vehicles := uniqueVehicles df_train
    let current_coverage := segsOf df_train first_vehicle
    let st : GreedyState :=
      ⟨total_vehicles.erase first_vehicle,
       df_train.filter (fun r => r.vehicle_id ≠ first_vehicle),
       current_coverage,
       [first_vehicle],
       [current_coverage.length],
       [0]⟩
    some (greedyLoop ord total_vehicles.length (vehicle_count - 1) 1 st)

/-- The incidence table of the scenario: agents `1, 2, 3` with segment sets
`A = {s1, s2}`, `B = {s2, s3}`, `C = {s4}`, where `sᵢ` is the segment
`(i, 0)`. -/
def dfScenario : List Row :=
  [⟨1, 1, 0, 1⟩, ⟨1, 2, 0, 1⟩, ⟨2, 2, 0, 1⟩, ⟨2, 3, 0, 1⟩, ⟨3, 4, 0, 1⟩]

/-- Ascending insertion of an element into a sorted list. -/
def insertAsc (x : Int) : List Int → List Int
  | [] => [x]
  | y :: ys => if x ≤ y then x :: y :: ys else y :: insertAsc x ys

/-- CPython's iteration order for a set of distinct small nonnegative ints:
when every member is below the table size 8, `hash(n) = n` places member `n`
in slot `n` with no collisions, and iteration scans slots in index order, so
members are yielded in ascending numeric order.  This instantiates the `ord`
parameter for the concrete scenario, whose agent ids are `1, 2, 3`. -/
def pySmallIntSetOrder : List Int → List Int
  | [] => []
  | x :: xs => insertAsc x (pySmallIntSetOrder xs)

/-! ## Helper lemmas -/

/-- `__decide_metric_function` never raises the cardinality error: its only
error is the unknown-metric one. -/
theorem decideMetricFunction_ne_invalidArgument (cm : CoverageMetric) :
    decideMetricFunction cm ≠ .error .invalidArgument := by
  cases cm with
  | str s =>
    unfold decideMetricFunction
    cases h : METRICS_LIST.find? (fun p => p.1 = s) <;> simp [h]
  | func f => simp [decideMetricFunction]

/-- `np.arange` emits nothing when the step points away from the stop (or the
range is empty). -/
theorem arangeAux_eq_nil (step : Int) (fuel : Nat) (cur stop : Int)
    (h : ¬((0 < step ∧ cur < stop) ∨ (step < 0 ∧ stop < cur))) :
    arangeAux step fuel cur stop = [] := by
  cases fuel <;> simp [arangeAux, h]

/-- Every element emitted by `np.arange` with a positive step is at least the
start value. -/
theorem arangeAux_lower (step : Int) (hstep : 0 < step) :
    ∀ (fuel : Nat) (cur stop b : Int), b ∈ arangeAux step fuel cur stop → cur ≤ b := by
  intro fuel
  induction fuel with
  | zero => intro cur stop b hb; simp [arangeAux] at hb
  | succ n ih =>
    intro cur stop b hb
    unfold arangeAux at hb
    by_cases h : (0 < step ∧ cur < stop) ∨ (step < 0 ∧ stop < cur)
    · rw [if_pos h] at hb
      rcases List.mem_cons.mp hb with h1 | h1
      · exact h1 ▸ le_refl cur
      · have := ih (cur + step) stop b h1
        omega
    · rw [if_neg h] at hb
      simp at hb

/-- `np.arange` output is empty or starts with the start value. -/
theorem arangeAux_head (step : Int) (fuel : Nat) (cur stop : Int) :
    arangeAux step fuel cur stop = [] ∨
    ∃ tl, arangeAux step fuel cur stop = cur :: tl := by
  cases fuel with
  | zero => exact .inl rfl
  | succ n =>
    unfold arangeAux
    by_cases h : (0 < step ∧ cur < stop) ∨ (step < 0 ∧ stop < cur)
    · exact .inr ⟨_, by rw [if_pos h]⟩
    · exact .inl (by rw [if_neg h])

/-- Key property of the boundary list `np.arange(cur, stop, step) + [stop]`:
for a positive step and a timestamp `ts` with `cur ≤ ts < stop`, exactly one
of the consecutive-pair segments contains `ts`. -/
theorem segments_filter_unique (step : Int) (hstep : 0 < step) :
    ∀ (fuel : Nat) (cur stop ts : Int), cur ≤ ts → ts < stop →
      (stop - cur).toNat ≤ fuel →
      (((arangeAux step fuel cur stop ++ [stop]).zip
          (arangeAux step fuel cur stop ++ [stop]).tail).filter
        (inSegment ts)).length = 1 := by
  intro fuel
  induction fuel with
  | zero => intro cur stop ts h1 h2 hf; omega
  | succ n ih =>
    intro cur stop ts h1 h2 hf
    have hguard : (0 < step ∧ cur < stop) ∨ (step < 0 ∧ stop < cur) :=
      .inl ⟨hstep, by omega⟩
    rw [show arangeAux step (n + 1) cur stop =
        cur :: arangeAux step n (cur + step) stop from by
      simp only [arangeAux]; rw [if_pos hguard]]
    rcases arangeAux_head step n (cur + step) stop with hnil | ⟨tl, htl⟩
    · rw [hnil]
      simp [inSegment, h1, h2]
    · rw [htl]
      by_cases hts : ts < cur + step
      · have hzero : ((((cur + step) :: (tl ++ [stop])).zip
            (tl ++ [stop])).filter (inSegment ts)) = [] := by
          refine List.filter_eq_nil_iff.mpr (fun p hp => ?_)
          obtain ⟨a, b⟩ := p
          have ha : a ∈ (cur + step) :: (tl ++ [stop]) := (List.of_mem_zip hp).1
          have hats : ts < a := by
            rcases List.mem_cons.mp ha with h | h
            · omega
            · rcases List.mem_append.mp h with h | h
              · have : cur + step ≤ a := by
                  refine arangeAux_lower step hstep n (cur + step) stop a ?_
                  rw [htl]; exact List.mem_cons_of_mem _ h
                omega
              · have : a = stop := by simpa using h
                omega
          simp [inSegment]
          omega
        simp only [List.cons_append, List.zip_cons_cons, List.tail_cons]
        rw [List.filter_cons_of_pos (by simp [inSegment]; omega), hzero]
        rfl
      · have h1' : cur + step ≤ ts := by omega
        have ihh := ih (cur + step) stop ts h1' h2 (by omega)
        rw [htl] at ihh
        simp only [List.cons_append, List.tail_cons] at ihh
        simp only [List.cons_append, List.zip_cons_cons, List.tail_cons]
        rw [List.filter_cons_of_neg (by simp [inSegment]; omega)]
        exact ihh

/-- A scanned vehicle whose union does not strictly beat the candidate count
leaves the accumulator unchanged. -/
theorem scanStep_no_update (dfRem : List Row) (cov : List (Int × Int))
    (a : Int × List (Int × Int) × Nat) (v : Int)
    (h : ((cov ++ segsOf dfRem v).dedup).length ≤ a.2.2) :
    scanStep dfRem cov a v = a := by
  simp only [scanStep]
  rw [if_neg (Nat.not_lt.mpr h)]

/-- A scanned vehicle whose union strictly beats the candidate count replaces
the accumulator. -/
theorem scanStep_update (dfRem : List Row) (cov : List (Int × Int))
    (a : Int × List (Int × Int) × Nat) (v : Int)
    (h : a.2.2 < ((cov ++ segsOf dfRem v).dedup).length) :
    scanStep dfRem cov a v =
      (v, (cov ++ segsOf dfRem v).dedup, ((cov ++ segsOf dfRem v).dedup).length) := by
  simp only [scanStep]
  rw [if_pos h]

/-- If no scanned vehicle strictly improves on the candidate count, the whole
scan leaves the accumulator unchanged. -/
theorem scan_foldl_const (dfRem : List Row) (cov : List (Int × Int)) :
    ∀ (l : List Int) (a : Int × List (Int × Int) × Nat),
      (∀ v ∈ l, unionCount cov (segsOf dfRem v) ≤ a.2.2) →
      l.foldl (scanStep dfRem cov) a = a := by
  intro l
  induction l with
  | nil => intro a _; rfl
  | cons v vs ih =>
    intro a h
    rw [List.foldl_cons, scanStep_no_update dfRem cov a v (h v (List.mem_cons_self v vs))]
    exact ih a (fun w hw => h w (List.mem_cons_of_mem _ hw))

/-- The scan either leaves the accumulator unchanged or strictly increases
its count component. -/
theorem scan_foldl_gain (dfRem : List Row) (cov : List (Int × Int)) :
    ∀ (l : List Int) (a : Int × List (Int × Int) × Nat),
      l.foldl (scanStep dfRem cov) a = a ∨
      a.2.2 < (l.foldl (scanStep dfRem cov) a).2.2 := by
  intro l
  induction l with
  | nil => intro a; exact .inl rfl
  | cons v vs ih =>
    intro a
    rw [List.foldl_cons]
    by_cases hup : a.2.2 < ((cov ++ segsOf dfRem v).dedup).length
    · right
      rw [scanStep_update dfRem cov a v hup]
      rcases ih (v, (cov ++ segsOf dfRem v).dedup,
          ((cov ++ segsOf dfRem v).dedup).length) with h | h
      · rw [h]; exact hup
      · exact lt_trans hup h
    · rw [scanStep_no_update dfRem cov a v (Nat.not_lt.mp hup)]
      exact ih a

/-- Appending a strictly larger value preserves a strictly increasing
chain. -/
theorem chain'_lt_append (l : List Nat) (n : Nat)
    (h : List.Chain' (· < ·) l) (hlt : l.getLastD 0 < n) :
    List.Chain' (· < ·) (l ++ [n]) := by
  refine List.chain'_append.mpr ⟨h, List.chain'_singleton n, ?_⟩
  intro x hx y hy
  simp only [List.head?_cons, Option.mem_def, Option.some.injEq] at hy
  subst hy
  have hx' : l.getLast? = some x := hx
  have : l.getLastD 0 = x := by rw [List.getLastD_eq_getLast?, hx']; rfl
  omega

/-- The greedy loop preserves strict monotonicity of `current_count`: each
appended count passed the `new_count > candidate_count` guard against the
last recorded count. -/
theorem greedyLoop_chain (ord : List Int → List Int) (tvc : Nat) :
    ∀ (fuel i : Nat) (st : GreedyState), List.Chain' (· < ·) st.current_count →
      List.Chain' (· < ·) (greedyLoop ord tvc fuel i st).current_count := by
  intro fuel
  induction fuel with
  | zero => intro i st h; exact h
  | succ n ih =>
    intro i st h
    simp only [greedyLoop]
    by_cases hi : i ≤ tvc
    · rw [if_pos hi]
      set acc := (ord st.pool).foldl (scanStep st.dfRem st.current_coverage)
        (-1, [], st.current_count.getLastD 0) with hacc
      by_cases hcand : (-1 : Int) < acc.1
      · rw [if_pos hcand]
        refine ih (i + 1) _ ?_
        refine chain'_lt_append _ _ h ?_
        rcases scan_foldl_gain st.dfRem st.current_coverage (ord st.pool)
            (-1, [], st.current_count.getLastD 0) with heq | hlt
        · rw [← hacc] at heq
          rw [heq] at hcand
          exact absurd hcand (lt_irrefl _)
        · rw [← hacc] at hlt
          exact hlt
      · rw [if_neg hcand]
        exact h
    · rw [if_neg hi]
      exact ih (i + 1) st h

/-- When no pool vehicle strictly improves on the last recorded count (best
marginal gain at most zero), the loop stops at once, returning the selection
built so far. -/
theorem greedyLoop_stop (ord : List Int → List Int)
    (hord : ∀ l, (ord l).Perm l) (tvc : Nat) :
    ∀ (fuel i : Nat) (st : GreedyState),
      (∀ v ∈ st.pool,
        unionCount st.current_coverage (segsOf st.dfRem v) ≤
          st.current_count.getLastD 0) →
      greedyLoop ord tvc fuel i st = st := by
  intro fuel
  induction fuel with
  | zero => intro i st _; rfl
  | succ n ih =>
    intro i st h
    simp only [greedyLoop]
    by_cases hi : i ≤ tvc
    · rw [if_pos hi]
      rw [scan_foldl_const st.dfRem st.current_coverage (ord st.pool)
        (-1, [], st.current_count.getLastD 0)
        (fun v hv => h v ((hord st.pool).subset hv))]
      simp
    · rw [if_neg hi]
      exact ih (i + 1) st h

/-- The loop adds at most one vehicle per remaining index. -/
theorem greedyLoop_length (ord : List Int → List Int) (tvc : Nat) :
    ∀ (fuel i : Nat) (st : GreedyState),
      (greedyLoop ord tvc fuel i st).current_vehicles.length ≤
        st.current_vehicles.length + fuel := by
  intro fuel
  induction fuel with
  | zero => intro i st; exact Nat.le_add_right _ 0
  | succ n ih =>
    intro i st
    simp only [greedyLoop]
    by_cases hi : i ≤ tvc
    · rw [if_pos hi]
      set acc := (ord st.pool).foldl (scanStep st.dfRem st.current_coverage)
        (-1, [], st.current_count.getLastD 0) with hacc
      by_cases hcand : (-1 : Int) < acc.1
      · rw [if_pos hcand]
        refine le_trans (ih (i + 1) _) ?_
        simp only [List.length_append, List.length_cons, List.length_nil]
        omega
      · rw [if_neg hcand]
        omega
    · rw [if_neg hi]
      exact le_trans (ih (i + 1) st) (by omega)

/-- A non-empty dataframe has a non-empty list of unique vehicles. -/
theorem uniqueVehicles_ne_nil (df : List Row) (hdf : df ≠ []) :
    uniqueVehicles df ≠ [] := by
  cases df with
  | nil => exact absurd rfl hdf
  | cons r rs =>
    unfold uniqueVehicles vehicleColumn
    simp only [List.map_cons, uniqueAux, List.not_mem_nil, if_false]
    exact List.cons_ne_nil _ _

/-- Python's `max` over the stats items returns a member of the iterated
sequence whose count is maximal (in whichever order the dict is iterated). -/
theorem firstVehicle_spec (df : List Row) :
    ∀ (vs : List Int) (v : Int),
      (vs.foldl (fun best w => if countOf df best < countOf df w then w else best) v)
        ∈ v :: vs ∧
      ∀ w ∈ v :: vs, countOf df w ≤ countOf df
        (vs.foldl (fun best w => if countOf df best < countOf df w then w else best) v) := by
  intro vs
  induction vs with
  | nil =>
    intro v
    refine ⟨List.mem_cons_self v [], fun w hw => ?_⟩
    rcases List.mem_cons.mp hw with h | h
    · exact h ▸ le_refl _
    · simp at h
  | cons w ws ih =>
    intro v
    rw [List.foldl_cons]
    obtain ⟨hmem, hmax⟩ := ih (if countOf df v < countOf df w then w else v)
    have hv' : (if countOf df v < countOf df w then w else v) ∈ v :: w :: ws := by
      by_cases hc : countOf df v < countOf df w
      · rw [if_pos hc]; exact List.mem_cons_of_mem _ (List.mem_cons_self _ _)
      · rw [if_neg hc]; exact List.mem_cons_self _ _
    constructor
    · rcases List.mem_cons.mp hmem with h | h
      · rw [h]; exact hv'
      · exact List.mem_cons_of_mem _ (List.mem_cons_of_mem _ h)
    · intro x hx
      have hbase : countOf df (if countOf df v < countOf df w then w else v) ≤
          countOf df (ws.foldl
            (fun best w => if countOf df best < countOf df w then w else best)
            (if countOf df v < countOf df w then w else v)) :=
        hmax _ (List.mem_cons_self _ _)
      rcases List.mem_cons.mp hx with h | h
      · subst h
        refine le_trans ?_ hbase
        by_cases hc : countOf df x < countOf df w
        · rw [if_pos hc]; exact le_of_lt hc
        · rw [if_neg hc]
      · rcases List.mem_cons.mp h with h | h
        · subst h
          refine le_trans ?_ hbase
          by_cases hc : countOf df v < countOf df x
          · rw [if_pos hc]
          · rw [if_neg hc]; exact Nat.not_lt.mp hc
        · exact hmax x (List.mem_cons_of_mem _ h)

/-! ## Claim theorems -/

/-- C4: temporal buckets step from `min_time` by the granularity with the
final boundary forced to `max_time + 1`, so every timestamp in
`[min_time, max_time]` (the maximum included) lies in exactly one half-open
bucket; in particular the range `[100, 250]` at granularity `100` yields
buckets `[100,200)` and `[200,251)`, and timestamp `250` is assigned
temporal id `200`. -/
theorem temporal_bucketing :
    (∀ granularity min_time max_time ts : Int,
      0 < granularity → min_time ≤ ts → ts ≤ max_time →
      ∃ segs, computeTimeSegments granularity min_time max_time = some segs ∧
        (segs.filter (inSegment ts)).length = 1) ∧
    computeTimeSegments 100 100 250 = some [(100, 200), (200, 251)] ∧
    assignTemporalId [(100, 200), (200, 251)] 250 = some 200 := by
  refine ⟨fun g mn mx ts hg h1 h2 => ?_, by decide, by decide⟩
  unfold computeTimeSegments getTimeSegments
  rw [if_neg (by omega : ¬g = 0)]
  refine ⟨_, rfl, ?_⟩
  unfold npArange
  exact segments_filter_unique g hg ((mx + 1 - mn).natAbs) mn (mx + 1) ts h1
    (by omega) (by omega)

/-- Witness for C4: timestamp `250` in range `[100, 250]` at granularity
`100` falls in exactly one bucket. -/
theorem temporal_bucketing_witness :
    ∃ segs, computeTimeSegments 100 100 250 = some segs ∧
      (segs.filter (inSegment 250)).length = 1 :=
  temporal_bucketing.1 100 100 250 250 (by decide) (by decide) (by decide)

/-- C2: for every train incidence table (any non-empty dataframe), every `k`,
and every iteration order of the `value_counts()` dict and of the vehicle
set, the greedy logic returns normally with a cumulative count list that is
strictly increasing at each selection step, the selection holds at most
`max 1 k` agents, and whenever no remaining pool vehicle adds new coverage
(best marginal gain `≤ 0`) the loop stops immediately, returning the
selection built so far (fewer than `k` agents when slots remained) without
an error. -/
theorem greedy_monotone_early_stop (statsOrd : List Int)
    (ord : List Int → List Int) (df : List Row) (k : Nat)
    (hord : ∀ l, (ord l).Perm l)
    (hstats : statsOrd.Perm (uniqueVehicles df))
    (hdf : df ≠ []) :
    ∃ r, maxCoverageGreedyLogic statsOrd ord df k = some r ∧
      List.Chain' (· < ·) r.current_count ∧
      r.current_vehicles.length ≤ max 1 k ∧
      (∀ (fuel i : Nat) (st : GreedyState),
        (∀ v ∈ st.pool,
          unionCount st.current_coverage (segsOf st.dfRem v) ≤
            st.current_count.getLastD 0) →
        greedyLoop ord (uniqueVehicles df).length fuel i st = st) := by
  obtain ⟨v, vs, hsplit⟩ : ∃ v vs, statsOrd = v :: vs := by
    cases h : statsOrd with
    | nil =>
      rw [h] at hstats
      exact absurd (hstats.symm.eq_nil) (uniqueVehicles_ne_nil df hdf)
    | cons v vs => exact ⟨v, vs, rfl⟩
  subst hsplit
  refine ⟨_, rfl, ?_, ?_, fun fuel i st h => greedyLoop_stop ord hord _ fuel i st h⟩
  · exact greedyLoop_chain ord _ (k - 1) 1 _ (List.chain'_singleton _)
  · refine le_trans (greedyLoop_length ord _ (k - 1) 1 _) ?_
    simp only [List.length_cons, List.length_nil]
    omega

/-- Witness for C2 on a one-row table with `k = 2` and the identity
iteration orders. -/
theorem greedy_monotone_early_stop_witness :
    ∃ r, maxCoverageGreedyLogic [1] id [⟨1, 0, 0, 1⟩] 2 = some r ∧
      List.Chain' (· < ·) r.current_count ∧
      r.current_vehicles.length ≤ max 1 2 ∧
      (∀ (fuel i : Nat) (st : GreedyState),
        (∀ v ∈ st.pool,
          unionCount st.current_coverage (segsOf st.dfRem v) ≤
            st.current_count.getLastD 0) →
        greedyLoop id (uniqueVehicles [⟨1, 0, 0, 1⟩]).length fuel i st = st) :=
  greedy_monotone_early_stop [1] id [⟨1, 0, 0, 1⟩] 2
    (fun l => List.Perm.refl l) (by decide) (by decide)

/-- C3: on the scenario table (`A = {s1,s2}`, `B = {s2,s3}`, `C = {s4}` with
agent ids `1, 2, 3`) and `k = 2`, whatever order pandas iterates the
`value_counts()` dict in, the greedy selection covers exactly
`{s1, s2, s3}` (size 3) and never returns the pair `{A, C}`.  The vehicle
set's iteration order is CPython's ascending order for small ints
(`pySmallIntSetOrder`). -/
theorem greedy_scenario (statsOrd : List Int)
    (hstats : statsOrd.Perm (uniqueVehicles dfScenario)) :
    ∃ r, maxCoverageGreedyLogic statsOrd pySmallIntSetOrder dfScenario 2 = some r ∧
      r.current_coverage.toFinset = ({(1, 0), (2, 0), (3, 0)} : Finset (Int × Int)) ∧
      r.current_coverage.toFinset.card = 3 ∧
      r.current_vehicles ≠ [1, 3] ∧ r.current_vehicles ≠ [3, 1] := by
  have huniq : uniqueVehicles dfScenario = [1, 2, 3] := by decide
  rw [huniq] at hstats
  obtain ⟨v, vs, hsplit⟩ : ∃ v vs, statsOrd = v :: vs := by
    cases h : statsOrd with
    | nil => rw [h] at hstats; simpa using hstats.length_eq
    | cons v vs => exact ⟨v, vs, rfl⟩
  subst hsplit
  obtain ⟨hmem, hmax⟩ := firstVehicle_spec dfScenario vs v
  set m := vs.foldl
    (fun best w => if countOf dfScenario best < countOf dfScenario w then w else best) v
    with hmdef
  have hm3 : m = 1 ∨ m = 2 := by
    have hmm := hstats.subset hmem
    have h1 : countOf dfScenario 1 ≤ countOf dfScenario m :=
      hmax 1 (hstats.symm.subset (by simp))
    rcases (by simpa using hmm : m = 1 ∨ m = 2 ∨ m = 3) with h | h | h
    · exact .inl h
    · exact .inr h
    · rw [h] at h1
      exact absurd h1 (by decide)
  rcases hm3 with h | h
  · have hfv : firstVehicle dfScenario (v :: vs) = some 1 := congrArg some h
    simp only [maxCoverageGreedyLogic, hfv]
    exact ⟨_, rfl, by decide, by decide, by decide, by decide⟩
  · have hfv : firstVehicle dfScenario (v :: vs) = some 2 := congrArg some h
    simp only [maxCoverageGreedyLogic, hfv]
    exact ⟨_, rfl, by decide, by decide, by decide, by decide⟩

/-- Witness for C3 with the dict order `[1, 2, 3]`. -/
theorem greedy_scenario_witness :
    ∃ r, maxCoverageGreedyLogic [1, 2, 3] pySmallIntSetOrder dfScenario 2 = some r ∧
      r.current_coverage.toFinset = ({(1, 0), (2, 0), (3, 0)} : Finset (Int × Int)) ∧
      r.current_coverage.toFinset.card = 3 ∧
      r.current_vehicles ≠ [1, 3] ∧ r.current_vehicles ≠ [3, 1] :=
  greedy_scenario [1, 2, 3] (by decide)

/-- C9 counterexample: `DataLoader` construction with the non-positive
granularity `-5` succeeds (the `__init__` body only stores its arguments), so
construction does not fail whenever `granularity_seconds ≤ 0`. -/
theorem dataLoader_validation_counterexample :
    dataLoaderInit (-5) "mongodb://localhost:27017/" "modulo" "mobility_data" =
      .ok ⟨-5, "mongodb://localhost:27017/", "modulo", "mobility_data"⟩ := rfl

/-- C9 amended: construction performs no validation at all and always
succeeds, for every granularity; a non-positive granularity surfaces only
later, inside the temporal-bucketing computation: granularity `0` makes
`np.arange` raise (`none`), and a negative granularity silently yields an
empty segment list. -/
theorem dataLoader_no_construction_validation :
    (∀ (g : Int) (u d c : String), dataLoaderInit g u d c = .ok ⟨g, u, d, c⟩) ∧
    (∀ s e : Int, getTimeSegments 0 s e = none) ∧
    (∀ g s e : Int, g < 0 → s < e → getTimeSegments g s e = some []) := by
  refine ⟨fun g u d c => rfl, fun s e => rfl, fun g s e hg hse => ?_⟩
  unfold getTimeSegments
  rw [if_neg (by omega : ¬g = 0)]
  rw [show npArange s e g = [] from
    arangeAux_eq_nil g _ s e (by omega)]
  rfl

/-- Witness for the amended C9: a negative granularity passes construction
and produces an empty segment list. -/
theorem dataLoader_no_construction_validation_witness :
    getTimeSegments (-5) 0 10 = some [] :=
  dataLoader_no_construction_validation.2.2 (-5) 0 10 (by decide) (by decide)

/-- C5: for every non-empty test table, `percentage_coverage` evaluated with a
selection containing all agents appearing in the table equals `100`, and
evaluated with an empty selection equals `0`. -/
theorem percentage_coverage_boundary :
    (∀ (df : List Row) (sel : List Int), df ≠ [] →
      (∀ r ∈ df, r.vehicle_id ∈ sel) →
      percentage_coverage sel df = some 100) ∧
    (∀ df : List Row, df ≠ [] → percentage_coverage [] df = some 0) := by
  have hne : ∀ df : List Row, df ≠ [] → ((df.map Row.segment).dedup.length : ℚ) ≠ 0 := by
    intro df hdf
    have : (df.map Row.segment).dedup ≠ [] := by
      simpa [List.dedup_eq_nil, List.map_eq_nil_iff] using hdf
    exact_mod_cast fun h => this (List.length_eq_zero.mp (by exact_mod_cast h))
  constructor
  · intro df sel hdf hall
    have hfilter : df.filter (fun r => r.vehicle_id ∈ sel) = df :=
      List.filter_eq_self.mpr (fun r hr => by simpa using hall r hr)
    have hlen := hne df hdf
    unfold percentage_coverage
    rw [hfilter]
    simp only [List.length_eq_zero, List.dedup_eq_nil, List.map_eq_nil_iff]
    rw [if_neg hdf, div_self hlen]
    norm_num
  · intro df hdf
    have hfilter : df.filter (fun r => r.vehicle_id ∈ ([] : List Int)) = [] := by
      simp
    have hlen := hne df hdf
    unfold percentage_coverage
    rw [hfilter]
    simp only [List.length_eq_zero, List.dedup_eq_nil, List.map_eq_nil_iff]
    rw [if_neg hdf]
    simp

/-- Witness for C5 at a concrete one-row table. -/
theorem percentage_coverage_boundary_witness :
    percentage_coverage [1] [⟨1, 0, 0, 1⟩] = some 100 ∧
    percentage_coverage [] [⟨1, 0, 0, 1⟩] = some 0 :=
  ⟨percentage_coverage_boundary.1 [⟨1, 0, 0, 1⟩] [1] (by decide) (by decide),
   percentage_coverage_boundary.2 [⟨1, 0, 0, 1⟩] (by decide)⟩

/-- C6: on a table with zero segments (the empty table) the metric fails
(Python raises `ZeroDivisionError`, embedded as `none`) for every selection
list; no numeric result is ever produced. -/
theorem percentage_coverage_empty_table (sel : List Int) :
    percentage_coverage sel [] = none := rfl

/-- C7: constructing a selector with `k` greater than the number of distinct
agents fails with the cardinality error (`InvalidArgument`); with `k` at most
that number, no cardinality error is raised. -/
theorem selector_cardinality_check (k : Nat) (df : List Row) (ts : Int)
    (cm : CoverageMetric) :
    ((uniqueVehicles df).length < k →
      vehicleSelectorInit k df ts cm = .error .invalidArgument) ∧
    (k ≤ (uniqueVehicles df).length →
      vehicleSelectorInit k df ts cm ≠ .error .invalidArgument) := by
  constructor
  · intro h
    simp [vehicleSelectorInit, h]
  · intro h
    unfold vehicleSelectorInit
    rw [if_neg (Nat.not_lt.mpr h)]
    cases hm : decideMetricFunction cm with
    | error e =>
      have := decideMetricFunction_ne_invalidArgument cm
      rw [hm] at this
      simpa using this
    | ok f => simp

/-- Witness for C7: `k = 2` on a one-agent table is rejected, `k = 1` is not. -/
theorem selector_cardinality_check_witness :
    vehicleSelectorInit 2 [⟨1, 0, 0, 1⟩] 0 (.str "percentage_coverage") =
      .error .invalidArgument ∧
    vehicleSelectorInit 1 [⟨1, 0, 0, 1⟩] 0 (.str "percentage_coverage") ≠
      .error .invalidArgument :=
  ⟨(selector_cardinality_check 2 [⟨1, 0, 0, 1⟩] 0 (.str "percentage_coverage")).1
      (by decide),
   (selector_cardinality_check 1 [⟨1, 0, 0, 1⟩] 0 (.str "percentage_coverage")).2
      (by decide)⟩

/-- C8: a string identifier found in the registry resolves to the function
registered under it; an identifier not in the registry fails with
`UnsupportedMetric`; a callable supplied directly is used as-is, bypassing
the registry. -/
theorem metric_resolution (s : String) (f : List Int → List Row → Option ℚ) :
    (∀ p, METRICS_LIST.find? (fun q => q.1 = s) = some p →
      decideMetricFunction (.str s) = .ok p.2) ∧
    (METRICS_LIST.find? (fun q => q.1 = s) = none →
      decideMetricFunction (.str s) = .error .unsupportedMetric) ∧
    decideMetricFunction (.func f) = .ok f := by
  refine ⟨fun p hp => ?_, fun hn => ?_, rfl⟩
  · simp [decideMetricFunction, hp]
  · simp [decideMetricFunction, hn]

/-- Witness for C8: the default identifier resolves to
`percentage_coverage`; an unknown identifier is rejected. -/
theorem metric_resolution_witness :
    decideMetricFunction (.str "percentage_coverage") = .ok percentage_coverage ∧
    decideMetricFunction (.str "bogus") = .error .unsupportedMetric :=
  ⟨(metric_resolution "percentage_coverage" percentage_coverage).1
      ("percentage_coverage", percentage_coverage) rfl,
   (metric_resolution "bogus" percentage_coverage).2.1 rfl⟩

/-- C10: the construction-time train/test split is a partition of the input
dataframe: train and test are disjoint, together they are a permutation of the
whole dataframe, and every row whose `temporal_id` equals the split timestamp
goes to the train partition. -/
theorem train_test_split_partition (df : List Row) (ts : Int) :
    (trainSplit df ts ++ testSplit df ts).Perm df ∧
    (∀ r : Row, ¬(r ∈ trainSplit df ts ∧ r ∈ testSplit df ts)) ∧
    (∀ r ∈ df, r.temporal_id = ts → r ∈ trainSplit df ts) := by
  refine ⟨?_, fun r ⟨h1, h2⟩ => ?_, fun r hr hts => ?_⟩
  · have hcongr : testSplit df ts =
        df.filter (fun r => !(decide (r.temporal_id ≤ ts))) := by
      unfold testSplit
      refine List.filter_congr (fun r _ => ?_)
      by_cases h : r.temporal_id ≤ ts
      · simp [h, not_lt.mpr h]
      · simp [h, lt_of_not_le h]
    rw [hcongr]
    exact List.filter_append_perm _ df
  · have h1' := (List.mem_filter.mp h1).2
    have h2' := (List.mem_filter.mp h2).2
    simp only [decide_eq_true_eq] at h1' h2'
    exact absurd h1' (not_le.mpr h2')
  · exact List.mem_filter.mpr ⟨hr, by simp [hts]⟩

/-- Witness for C10 at a one-row dataframe whose `temporal_id` equals the
split timestamp. -/
theorem train_test_split_partition_witness :
    (⟨1, 0, 5, 1⟩ : Row) ∈ trainSplit [⟨1, 0, 5, 1⟩] 5 :=
  (train_test_split_partition [⟨1, 0, 5, 1⟩] 5).2.2 ⟨1, 0, 5, 1⟩ (by decide) rfl

end Modulo
